import Mathlib

/-!
# Verification of the Convolution2D layer (keras-js)

Shallow embedding of `src/layers/convolutional/Convolution2D.js`.

Tensors are modelled as index functions into an integer value grid together
with an explicit shape; the source's Float32 values are embedded as exact
integers, so every equation proved here is exact (and in particular holds
"within floating tolerance").  Mutation of the layer object (`this.outputShape`,
`this.inputPadding`, `this._wRowsMat`, `this.weights`) is modelled by explicit
state passing on a `LayerState` record, and the mutable `Tensor` wrapper passed
to `call` is modelled by `TensorW`, whose `id` field stands for the object
identity of the wrapper.
-/

namespace Conv2D

/-- The two border modes accepted by the constructor (line 37). -/
inductive BorderMode
  | valid
  | same
deriving DecidableEq

/-- The two dim orderings accepted by the constructor (line 45):
`tf` = channelsLast, `th` = channelsFirst. -/
inductive DimOrdering
  | tf
  | th
deriving DecidableEq

/-- A 3-D tensor: shape `(dim0, dim1, dim2)` plus a total value function.
Entries outside the shape are never read by the embedded pipeline. -/
structure Tensor3 where
  shape : Nat × Nat × Nat
  data : Nat → Nat → Nat → Int

/-- The mutable `Tensor` wrapper handed to `call`: `id` models the JS object
identity of the wrapper, `useWeblas` is the `_useWeblas` flag carried on the
input tensor (read at line 225), and `tensor` is the `.tensor` field. -/
structure TensorW where
  id : Nat
  useWeblas : Bool
  tensor : Tensor3

/-- `x.tensor.transpose(1, 2, 0)` (line 194): entry `(a,b,c)` of the view is
entry `(c,a,b)` of the original, mapping `[C,H,W]` to `[H,W,C]`. -/
def transpose120 (x : Tensor3) : Tensor3 :=
  { shape := (x.shape.2.1, x.shape.2.2, x.shape.1)
    data := fun a b c => x.data c a b }

/-- `x.tensor.transpose(2, 0, 1)` (line 260): entry `(a,b,c)` of the view is
entry `(b,c,a)` of the original, mapping `[H,W,C]` to `[C,H,W]`. -/
def transpose201 (x : Tensor3) : Tensor3 :=
  { shape := (x.shape.2.2, x.shape.1, x.shape.2.1)
    data := fun a b c => x.data b c a }

/-- `weightsArr[0].tensor.transpose(2, 3, 1, 0)` (line 67): converts a `th`
weight tensor `[nbFilter, inputChannels, nbRow, nbCol]` into the canonical
`tf` layout `[nbRow, nbCol, inputChannels, nbFilter]`. -/
def transposeW2310 (w : Nat → Nat → Nat → Nat → Int) : Nat → Nat → Nat → Nat → Int :=
  fun a b c d => w d c a b

/-- Result record of `_calcOutputShape` (lines 81-107): the fields written to
`this.outputShape` and `this.inputPadding`.  JS numbers are embedded as `Int`
and `Math.floor` of a quotient as `Int.fdiv`. -/
structure ShapePad where
  outputRows : Int
  outputCols : Int
  outputChannels : Int
  paddingRowBefore : Int
  paddingRowAfter : Int
  paddingColBefore : Int
  paddingColAfter : Int

/-- `_calcOutputShape` (lines 81-107).  `inputRows`/`inputCols` are the spatial
dims of `x`, `nbFilter`/`nbRow`/`nbCol` the components of `this.kernelShape`,
`sr`/`sc` the two components of `this.subsample`. -/
def calcOutputShape (borderMode : BorderMode) (nbFilter nbRow nbCol sr sc inputRows inputCols : Int) :
    ShapePad :=
  let outputRows : Int :=
    match borderMode with
    | .same => (inputRows + sr - 1).fdiv sr
    | .valid => (inputRows - nbRow + sr).fdiv sr
  let outputCols : Int :=
    match borderMode with
    | .same => (inputCols + sc - 1).fdiv sc
    | .valid => (inputCols - nbCol + sc).fdiv sc
  let paddingRow : Int :=
    match borderMode with
    | .same => max 0 ((outputRows - 1) * sr + nbRow - inputRows)
    | .valid => 0
  let paddingCol : Int :=
    match borderMode with
    | .same => max 0 ((outputCols - 1) * sc + nbCol - inputCols)
    | .valid => 0
  let paddingRowBefore := paddingRow.fdiv 2
  let paddingRowAfter := paddingRow - paddingRowBefore
  let paddingColBefore := paddingCol.fdiv 2
  let paddingColAfter := paddingCol - paddingColBefore
  { outputRows := outputRows, outputCols := outputCols, outputChannels := nbFilter
    paddingRowBefore := paddingRowBefore, paddingRowAfter := paddingRowAfter
    paddingColBefore := paddingColBefore, paddingColAfter := paddingColAfter }

/-- `_padInput` (lines 115-131).  In `valid` mode nothing happens; in `same`
mode a fresh zero-initialized tensor of the padded shape is allocated and the
original data copied into the sub-region starting at
`(paddingRowBefore, paddingColBefore, 0)`.  The source writes only into the
fresh tensor `_x` (the `ops.assign` target); the original ndarray's buffer is
read, never written. -/
def padInput (borderMode : BorderMode) (prb pra pcb pca : Nat) (x : Tensor3) : Tensor3 :=
  match borderMode with
  | .valid => x
  | .same =>
      let inputRows := x.shape.1
      let inputCols := x.shape.2.1
      let inputChannels := x.shape.2.2
      { shape := (inputRows + prb + pra, inputCols + pcb + pca, inputChannels)
        data := fun i j c =>
          if prb ≤ i ∧ i < inputRows + prb ∧ pcb ≤ j ∧ j < inputCols + pcb ∧ c < inputChannels
          then x.data (i - prb) (j - pcb) c
          else 0 }

/-- `_im2col` (lines 138-162) as an index function on the built patch matrix.
The double loop enumerates window origins `(i, j)` with `i` stepping by `sr`
from `0` to `inputRows - nbRow` and `j` stepping by `sc` from `0` to
`inputCols - nbCol`, so the inner loop runs `(inputCols - nbCol) / sc + 1`
times per outer iteration and row `p` of the matrix holds the window whose
origin is `(p / nJ * sr, p % nJ * sc)`.  Each window `[nbRow, nbCol, C]` is
ravelled row-major (row slowest, channel fastest), so column
`m = r * (nbCol * C) + c * C + ch` holds the window value at `(r, c, ch)`. -/
def im2colMat (x : Nat → Nat → Nat → Int) (inputCols inputChannels nbRow nbCol sr sc : Nat) :
    Nat → Nat → Int :=
  fun p m =>
    let nJ := (inputCols - nbCol) / sc + 1
    let r := m / (nbCol * inputChannels)
    let c := m / inputChannels % nbCol
    let ch := m % inputChannels
    x (p / nJ * sr + r) (p % nJ * sc + c) ch

/-- `_w2row` (lines 168-184) as an index function on the built weight matrix:
column `n` is the row-major ravel of `W[:, :, :, n]`, in the same
`(row, col, channel)` order used by `_im2col`. -/
def w2rowMat (w : Nat → Nat → Nat → Nat → Int) (inputChannels nbCol : Nat) :
    Nat → Nat → Int :=
  fun k n =>
    let r := k / (nbCol * inputChannels)
    let c := k / inputChannels % nbCol
    let ch := k % inputChannels
    w r c ch n

/-- The reference path (line 235): `gemm(matMul, imColsMat, wRowsMat, 1, 1)`
accumulates `A · B` onto the initial contents of `matMul`, which the loop at
lines 219-223 filled with the bias (or left at zero). -/
def refGemm (biasInit : Nat → Int) (a b : Nat → Nat → Int) (kdim : Nat) :
    Nat → Nat → Int :=
  fun p f => biasInit f + ∑ k in Finset.range kdim, a p k * b k f

/-- The accelerated path (lines 229-233): `weblas.sgemm(M, N, K, 1, A, B, 1, bias)`
computes `1 · A · B + 1 · bias` with the bias row broadcast over the rows. -/
def weblasSgemm (kdim : Nat) (a b : Nat → Nat → Int) (beta : Int) (bias : Nat → Int) :
    Nat → Nat → Int :=
  fun p f => (∑ k in Finset.range kdim, a p k * b k f) + beta * bias f

/-- The two matrix-multiply strategies of the spec's MatMulBackend. -/
inductive MatBackend
  | reference
  | accelerated
deriving DecidableEq

/-- The branch condition at line 225: `call` picks the accelerated path iff the
input wrapper's `_useWeblas` flag is set.  The constructor (lines 18-55) never
records any backend choice; this per-input flag alone decides the path. -/
def backendChosen (x : TensorW) : MatBackend :=
  if x.useWeblas then .accelerated else .reference

/-- The mutable fields of the layer object touched by `setWeights` and `call`:
`weightsW`/`weightsB` are `this.weights.W` / `this.weights.b`, `wRowsMat` is
the cached `this._wRowsMat`, and `outputShape` / `inputPadding` are the fields
written by `_calcOutputShape`. -/
structure LayerState where
  weightsW : Nat → Nat → Nat → Nat → Int
  weightsB : Nat → Int
  wRowsMat : Nat → Nat → Int
  outputShape : Int × Int × Int
  inputPadding : Int × Int × Int × Int

/-- `setWeights` (lines 64-72): in `th` ordering the weight tensor is
transposed once into canonical layout; the weights are stored and
`this._wRowsMat` is recomputed from them.  `inputChannels` is
`this.weights.W.tensor.shape[2]` and `nbCol` is `this.kernelShape[2]`. -/
def setWeightsState (ord : DimOrdering) (inputChannels nbCol : Nat)
    (w : Nat → Nat → Nat → Nat → Int) (b : Nat → Int) (s : LayerState) : LayerState :=
  let w2 := match ord with
    | .th => transposeW2310 w
    | .tf => w
  { s with weightsW := w2, weightsB := b, wRowsMat := w2rowMat w2 inputChannels nbCol }

/-- `call` (lines 191-264), with the layer-object mutation made explicit: the
result is the updated layer state together with the returned wrapper.  The
steps mirror the source in order: optional `th` entry transpose (line 194),
`_calcOutputShape` (line 197, writing `outputShape`/`inputPadding`),
`_padInput` (line 201), `_im2col` (line 205), the cached `this._wRowsMat`
read (line 209), bias initialization and the `_useWeblas` branch between
`weblas.sgemm` and `gemm` (lines 219-236), un-flattening into the output
tensor (lines 241-248), overwriting `x.tensor` (line 249), the external
activation applied in place (line 254), the optional `th` exit transpose
(line 260), and `return x` (line 263).  `act` is the external activation
(`linear` is the identity). -/
def callState (ord : DimOrdering) (borderMode : BorderMode)
    (nbFilter nbRow nbCol sr sc : Nat) (useBias : Bool) (inputChannels : Nat)
    (act : Tensor3 → Tensor3) (s : LayerState) (xw : TensorW) : LayerState × TensorW :=
  let x0 := match ord with
    | .th => transpose120 xw.tensor
    | .tf => xw.tensor
  let sp := calcOutputShape borderMode nbFilter nbRow nbCol sr sc x0.shape.1 x0.shape.2.1
  let s1 := { s with
    outputShape := (sp.outputRows, sp.outputCols, sp.outputChannels)
    inputPadding := (sp.paddingRowBefore, sp.paddingRowAfter, sp.paddingColBefore, sp.paddingColAfter) }
  let xp := padInput borderMode sp.paddingRowBefore.toNat sp.paddingRowAfter.toNat
    sp.paddingColBefore.toNat sp.paddingColAfter.toNat x0
  let imCols := im2colMat xp.data xp.shape.2.1 inputChannels nbRow nbCol sr sc
  let wRows := s1.wRowsMat
  let outputRows := sp.outputRows.toNat
  let outputCols := sp.outputCols.toNat
  let patchLen := nbRow * nbCol * inputChannels
  let biasInit : Nat → Int := fun f => if useBias then s1.weightsB f else 0
  let matMul := match backendChosen xw with
    | .accelerated => weblasSgemm patchLen imCols wRows 1 biasInit
    | .reference => refGemm biasInit imCols wRows patchLen
  let output : Tensor3 :=
    { shape := (outputRows, outputCols, nbFilter)
      data := fun i j n => matMul (i * outputCols + j) n }
  let y := act output
  let y2 := match ord with
    | .th => transpose201 y
    | .tf => y
  (s1, { xw with tensor := y2 })

/-- Folds a sequence of `call` invocations through the layer state, discarding
the returned tensors. -/
def foldCalls (ord : DimOrdering) (borderMode : BorderMode)
    (nbFilter nbRow nbCol sr sc : Nat) (useBias : Bool) (inputChannels : Nat)
    (act : Tensor3 → Tensor3) (s : LayerState) (xs : List TensorW) : LayerState :=
  xs.foldl
    (fun st x => (callState ord borderMode nbFilter nbRow nbCol sr sc useBias inputChannels act st x).1)
    s

/-- Modelled from the spec: the direct-definition convolution of the testable
property in section 8 - a brute-force loop over kernel row, kernel column, and
channel for each output position `(i, j)` and filter `f`, with the window
origin at `(i * strideRows, j * strideCols)`, plus the bias.  Used only as the
comparison point for the im2col pipeline. -/
def directConv (x : Nat → Nat → Nat → Int) (w : Nat → Nat → Nat → Nat → Int)
    (b : Nat → Int) (useBias : Bool) (inputChannels nbRow nbCol sr sc : Nat) :
    Nat → Nat → Nat → Int :=
  fun i j f =>
    (if useBias then b f else 0) +
      ∑ r in Finset.range nbRow, ∑ c in Finset.range nbCol,
        ∑ ch in Finset.range inputChannels,
          x (i * sr + r) (j * sc + c) ch * w r c ch f

/-- Un-flattening step of `call` (lines 241-248) on its own: result row `n` of
the matmul maps to output position `(n / outputCols, n % outputCols)`, i.e.
output entry `(i, j, f)` reads matmul entry `(i * outputCols + j, f)`. -/
def assembleOutput (matMul : Nat → Nat → Int) (outputCols : Nat) :
    Nat → Nat → Nat → Int :=
  fun i j f => matMul (i * outputCols + j) f

/-- The constructor's attribute object (lines 22-31) with its JS defaults;
string-valued attributes stay strings, numbers are embedded as `Int`. -/
structure Attrs where
  nbFilter : Int := 1
  nbRow : Int := 3
  nbCol : Int := 3
  borderMode : String := "valid"
  subsampleRow : Int := 1
  subsampleCol : Int := 1
  dimOrdering : String := "tf"
  bias : Bool := true

/-- The configuration stored on a successfully constructed layer. -/
structure Config where
  kernelShape : Int × Int × Int
  borderMode : BorderMode
  subsampleRow : Int
  subsampleCol : Int
  dimOrdering : DimOrdering
  bias : Bool
  params : List String

/-- The constructor (lines 18-55): `borderMode` must be `"valid"` or `"same"`
(line 37, throw at line 40) and `dimOrdering` must be `"tf"` or `"th"`
(line 45, throw at line 48); no other attribute is validated. -/
def construct (attrs : Attrs) : Except String Config :=
  if attrs.borderMode = "valid" ∨ attrs.borderMode = "same" then
    if attrs.dimOrdering = "tf" ∨ attrs.dimOrdering = "th" then
      Except.ok
        { kernelShape := (attrs.nbFilter, attrs.nbRow, attrs.nbCol)
          borderMode := if attrs.borderMode = "same" then .same else .valid
          subsampleRow := attrs.subsampleRow
          subsampleCol := attrs.subsampleCol
          dimOrdering := if attrs.dimOrdering = "th" then .th else .tf
          bias := attrs.bias
          params := if attrs.bias then ["W", "b"] else ["W"] }
    else Except.error "[Convolution2D layer] Only tf and th dim ordering are allowed."
  else Except.error "[Convolution2D layer] Invalid borderMode."

/-- The 5x5x1 input of sequential values 0..24 from the spec's concrete
scenario (section 8). -/
def seqInput55 : Tensor3 :=
  { shape := (5, 5, 1), data := fun i j _ => Int.ofNat (i * 5 + j) }

/-- The wrapper carrying `seqInput55` into `call`, reference path. -/
def c5Wrapper : TensorW :=
  { id := 0, useWeblas := false, tensor := seqInput55 }

/-- The 3x3x1x1 all-ones kernel of the spec's concrete scenario. -/
def onesKernel : Nat → Nat → Nat → Nat → Int := fun _ _ _ _ => 1

/-- The zero bias vector. -/
def zeroBias : Nat → Int := fun _ => 0

/-- A freshly constructed layer state, before any weight assignment. -/
def initialState : LayerState :=
  { weightsW := fun _ _ _ _ => 0, weightsB := fun _ => 0, wRowsMat := fun _ _ => 0
    outputShape := (0, 0, 0), inputPadding := (0, 0, 0, 0) }

/-- The layer state of the concrete scenario: all-ones 3x3x1x1 kernel and zero
bias assigned through `setWeights` in `tf` ordering. -/
def c5State : LayerState :=
  setWeightsState .tf 1 3 onesKernel zeroBias initialState

/-- The wrapper returned by `call` on the concrete scenario: 1 filter, 3x3
kernel, stride 1, `valid` mode, bias enabled (and zero), linear activation. -/
def c5Result : TensorW :=
  (callState .tf .valid 1 3 3 1 1 true 1 id c5State c5Wrapper).2

/-- A small 2x2x1 tensor used as a concrete instance in witnesses. -/
def tinyT : Tensor3 :=
  { shape := (2, 2, 1), data := fun i j _ => Int.ofNat (i * 2 + j + 1) }

/-! ## Helper lemmas -/

/-- Splitting a sum over `range (a * b)` into a double sum, outer index
slowest: the flat index is `i * b + j`. -/
lemma sum_range_mul (a b : Nat) (f : Nat → Int) :
    ∑ m in Finset.range (a * b), f m
      = ∑ i in Finset.range a, ∑ j in Finset.range b, f (i * b + j) := by
  induction a with
  | zero => simp
  | succ n ih =>
    calc ∑ m in Finset.range ((n + 1) * b), f m
        = ∑ m in Finset.Ico 0 (n * b + b), f m := by
          rw [Nat.succ_mul, Finset.range_eq_Ico]
      _ = (∑ m in Finset.Ico 0 (n * b), f m) + ∑ m in Finset.Ico (n * b) (n * b + b), f m :=
          (Finset.sum_Ico_consecutive f (Nat.zero_le (n * b)) (Nat.le_add_right (n * b) b)).symm
      _ = (∑ i in Finset.range n, ∑ j in Finset.range b, f (i * b + j))
            + ∑ j in Finset.range b, f (n * b + j) := by
          rw [← Finset.range_eq_Ico, ih, Finset.sum_Ico_eq_sum_range, Nat.add_sub_cancel_left]
      _ = ∑ i in Finset.range (n + 1), ∑ j in Finset.range b, f (i * b + j) :=
          (Finset.sum_range_succ _ n).symm

/-- Triple-sum version of `sum_range_mul`, matching the `(row, col, channel)`
ravel order: the flat index is `r * (b * c) + (s * c + t)`. -/
lemma sum_range_mul3 (a b c : Nat) (f : Nat → Int) :
    ∑ m in Finset.range (a * b * c), f m
      = ∑ r in Finset.range a, ∑ s in Finset.range b, ∑ t in Finset.range c,
          f (r * (b * c) + (s * c + t)) := by
  rw [mul_assoc, sum_range_mul a (b * c) f]
  exact Finset.sum_congr rfl fun r _ => sum_range_mul b c (fun m => f (r * (b * c) + m))

/-- Decoding the quotient of a flat index. -/
lemma div_decode (d i j : Nat) (h : j < d) : (i * d + j) / d = i := by
  rw [mul_comm, Nat.mul_add_div (Nat.lt_of_le_of_lt (Nat.zero_le j) h),
    Nat.div_eq_of_lt h, Nat.add_zero]

/-- Decoding the remainder of a flat index. -/
lemma mod_decode (d i j : Nat) (h : j < d) : (i * d + j) % d = j := by
  rw [mul_comm, Nat.mul_add_mod, Nat.mod_eq_of_lt h]

/-- The two-level ravel of in-range coordinates is in range. -/
lemma ravel_lt (b c s t : Nat) (hs : s < b) (ht : t < c) : s * c + t < b * c :=
  calc s * c + t < s * c + c := Nat.add_lt_add_left ht _
    _ = (s + 1) * c := (Nat.succ_mul s c).symm
    _ ≤ b * c := Nat.mul_le_mul_right c (Nat.succ_le_of_lt hs)

/-- For a nonnegative integer, the floor half never exceeds the remaining
half: the odd extra unit lands on the `after` side of the padding split. -/
lemma fdiv_two_le_sub (p : Int) : p.fdiv 2 ≤ p - p.fdiv 2 := by
  have hfd : p.fdiv 2 = p / 2 := Int.fdiv_eq_ediv p (by norm_num)
  have hid := Int.ediv_add_emod p 2
  have hmn := Int.emod_nonneg p (by norm_num : (2 : Int) ≠ 0)
  rw [hfd]
  linarith

/-- `(H + s - 1).fdiv s` is the ceiling of `H / s` for positive `s`,
characterized order-theoretically: it is the least integer `q` with
`H ≤ q * s`. -/
lemma ceil_char (H s : Int) (hs : 0 < s) :
    H ≤ ((H + s - 1).fdiv s) * s ∧ ((H + s - 1).fdiv s - 1) * s < H := by
  have hfd : (H + s - 1).fdiv s = (H + s - 1) / s := Int.fdiv_eq_ediv _ (le_of_lt hs)
  have hid := Int.ediv_add_emod (H + s - 1) s
  have hmn := Int.emod_nonneg (H + s - 1) (ne_of_gt hs)
  have hml := Int.emod_lt_of_pos (H + s - 1) hs
  rw [hfd]
  constructor <;> nlinarith

/-- `call` never writes the cached `_wRowsMat`: the state it returns carries
the field through unchanged (only `outputShape` and `inputPadding` are
rewritten, at line 197). -/
lemma callState_preserves_wRowsMat (ord : DimOrdering) (bm : BorderMode)
    (nbFilter nbRow nbCol sr sc : Nat) (useBias : Bool) (inputChannels : Nat)
    (act : Tensor3 → Tensor3) (s : LayerState) (x : TensorW) :
    (callState ord bm nbFilter nbRow nbCol sr sc useBias inputChannels act s x).1.wRowsMat
      = s.wRowsMat := rfl

/-- Any sequence of calls leaves the cached `_wRowsMat` untouched. -/
lemma foldCalls_wRowsMat (ord : DimOrdering) (bm : BorderMode)
    (nbFilter nbRow nbCol sr sc : Nat) (useBias : Bool) (inputChannels : Nat)
    (act : Tensor3 → Tensor3) (s : LayerState) (xs : List TensorW) :
    (foldCalls ord bm nbFilter nbRow nbCol sr sc useBias inputChannels act s xs).wRowsMat
      = s.wRowsMat := by
  induction xs generalizing s with
  | nil => rfl
  | cons x xs ih =>
    simp only [foldCalls, List.foldl_cons] at ih ⊢
    rw [ih]
    rfl

/-! ## Claim theorems -/

/-- **C1.** For every input feature map (already padded), weights of matching
channel count, bias vector, and stride, the pipeline of `_im2col` on the
input, matrix multiply with the `_w2row` weight matrix plus bias, and
un-flattening of the result row `i * outputCols + j` to output position
`(i, j, f)` equals the direct-definition convolution given by the brute-force
loop over output position, kernel offset, and channel.  Values are embedded as
exact integers, so the equality is exact, hence within any floating
tolerance.  `outputCols` is the number of windows the inner `_im2col` loop
produces per outer iteration, which is the valid-mode output-column count for
the (padded) input width. -/
theorem im2col_pipeline_eq_directConv
    (x : Nat → Nat → Nat → Int) (w : Nat → Nat → Nat → Nat → Int)
    (b : Nat → Int) (useBias : Bool)
    (inputCols inputChannels nbRow nbCol sr sc outputCols i j f : Nat)
    (hout : outputCols = (inputCols - nbCol) / sc + 1)
    (hj : j < outputCols) :
    assembleOutput
      (refGemm (fun g => if useBias then b g else 0)
        (im2colMat x inputCols inputChannels nbRow nbCol sr sc)
        (w2rowMat w inputChannels nbCol)
        (nbRow * nbCol * inputChannels))
      outputCols i j f
      = directConv x w b useBias inputChannels nbRow nbCol sr sc i j f := by
  subst hout
  unfold assembleOutput refGemm directConv
  congr 1
  rw [sum_range_mul3 nbRow nbCol inputChannels]
  refine Finset.sum_congr rfl fun r hr => Finset.sum_congr rfl fun s hs =>
    Finset.sum_congr rfl fun t ht => ?_
  rw [Finset.mem_range] at hr hs ht
  simp only [im2colMat, w2rowMat]
  have h1 : (i * ((inputCols - nbCol) / sc + 1) + j) / ((inputCols - nbCol) / sc + 1) = i :=
    div_decode _ i j hj
  have h2 : (i * ((inputCols - nbCol) / sc + 1) + j) % ((inputCols - nbCol) / sc + 1) = j :=
    mod_decode _ i j hj
  have hb : s * inputChannels + t < nbCol * inputChannels := ravel_lt _ _ _ _ hs ht
  have h3 : (r * (nbCol * inputChannels) + (s * inputChannels + t)) / (nbCol * inputChannels) = r :=
    div_decode _ r _ hb
  have heq : r * (nbCol * inputChannels) + (s * inputChannels + t)
      = (r * nbCol + s) * inputChannels + t := by ring
  have h4 : (r * (nbCol * inputChannels) + (s * inputChannels + t)) / inputChannels % nbCol = s := by
    rw [heq, div_decode _ _ t ht, mod_decode _ r s hs]
  have h5 : (r * (nbCol * inputChannels) + (s * inputChannels + t)) % inputChannels = t := by
    rw [heq, mod_decode _ _ t ht]
  rw [h1, h2, h3, h4, h5]

/-- Witness for C1 at the concrete 5x5x1 scenario: hypotheses
`outputCols = (inputCols - nbCol) / sc + 1` and `j < outputCols` hold at
`inputCols = 5`, `nbCol = 3`, `sc = 1`, `outputCols = 3`, `j = 0`. -/
theorem im2col_pipeline_eq_directConv_witness :
    ((3 : Nat) = (5 - 3) / 1 + 1 ∧ (0 : Nat) < 3)
      ∧ assembleOutput
          (refGemm (fun g => if true then zeroBias g else 0)
            (im2colMat seqInput55.data 5 1 3 3 1 1)
            (w2rowMat onesKernel 1 3) (3 * 3 * 1))
          3 0 0 0
        = directConv seqInput55.data onesKernel zeroBias true 1 3 3 1 1 0 0 0 :=
  ⟨⟨by decide, by decide⟩,
    im2col_pipeline_eq_directConv seqInput55.data onesKernel zeroBias true
      5 1 3 3 1 1 3 0 0 0 (by decide) (by decide)⟩

/-- **C2.** For every positive input size, kernel size, and stride:
in `valid` mode the computed output rows equal
`floor((H - nbRow + sr) / sr)` (columns analogous) and the padding is
`(0,0,0,0)`; in `same` mode the output rows are the ceiling of `H / sr` (here
characterized exactly: `outputRows` is the integer `q` with
`(q - 1) * sr < H ≤ q * sr`), the total row padding is
`max 0 ((outputRows - 1) * sr + nbRow - H)`, split as
`before = floor(total / 2)` and `after = total - before`, so the odd extra
pixel goes to the after side (`before ≤ after`); columns are treated
identically. -/
theorem calcOutputShape_spec (nbF H W kr kc sr sc : Int)
    (hH : 0 < H) (hW : 0 < W) (hkr : 0 < kr) (hkc : 0 < kc)
    (hsr : 0 < sr) (hsc : 0 < sc) :
    ((calcOutputShape .valid nbF kr kc sr sc H W).outputRows = (H - kr + sr).fdiv sr
      ∧ (calcOutputShape .valid nbF kr kc sr sc H W).outputCols = (W - kc + sc).fdiv sc
      ∧ (calcOutputShape .valid nbF kr kc sr sc H W).paddingRowBefore = 0
      ∧ (calcOutputShape .valid nbF kr kc sr sc H W).paddingRowAfter = 0
      ∧ (calcOutputShape .valid nbF kr kc sr sc H W).paddingColBefore = 0
      ∧ (calcOutputShape .valid nbF kr kc sr sc H W).paddingColAfter = 0)
    ∧ ((H ≤ (calcOutputShape .same nbF kr kc sr sc H W).outputRows * sr
          ∧ ((calcOutputShape .same nbF kr kc sr sc H W).outputRows - 1) * sr < H)
      ∧ (W ≤ (calcOutputShape .same nbF kr kc sr sc H W).outputCols * sc
          ∧ ((calcOutputShape .same nbF kr kc sr sc H W).outputCols - 1) * sc < W)
      ∧ (calcOutputShape .same nbF kr kc sr sc H W).paddingRowBefore
          = (max 0 (((calcOutputShape .same nbF kr kc sr sc H W).outputRows - 1) * sr + kr - H)).fdiv 2
      ∧ (calcOutputShape .same nbF kr kc sr sc H W).paddingRowAfter
          = max 0 (((calcOutputShape .same nbF kr kc sr sc H W).outputRows - 1) * sr + kr - H)
            - (max 0 (((calcOutputShape .same nbF kr kc sr sc H W).outputRows - 1) * sr + kr - H)).fdiv 2
      ∧ (calcOutputShape .same nbF kr kc sr sc H W).paddingRowBefore
          ≤ (calcOutputShape .same nbF kr kc sr sc H W).paddingRowAfter
      ∧ (calcOutputShape .same nbF kr kc sr sc H W).paddingColBefore
          = (max 0 (((calcOutputShape .same nbF kr kc sr sc H W).outputCols - 1) * sc + kc - W)).fdiv 2
      ∧ (calcOutputShape .same nbF kr kc sr sc H W).paddingColAfter
          = max 0 (((calcOutputShape .same nbF kr kc sr sc H W).outputCols - 1) * sc + kc - W)
            - (max 0 (((calcOutputShape .same nbF kr kc sr sc H W).outputCols - 1) * sc + kc - W)).fdiv 2
      ∧ (calcOutputShape .same nbF kr kc sr sc H W).paddingColBefore
          ≤ (calcOutputShape .same nbF kr kc sr sc H W).paddingColAfter) := by
  exact ⟨⟨rfl, rfl, by norm_num [calcOutputShape], by norm_num [calcOutputShape],
      by norm_num [calcOutputShape], by norm_num [calcOutputShape]⟩,
    ceil_char H sr hsr, ceil_char W sc hsc,
    rfl, rfl, fdiv_two_le_sub _, rfl, rfl, fdiv_two_le_sub _⟩

/-- Witness for C2: all positivity hypotheses hold at
`nbF = 1, H = W = 5, kr = kc = 3, sr = sc = 2`. -/
theorem calcOutputShape_spec_witness :
    ((0 : Int) < 5 ∧ (0 : Int) < 3 ∧ (0 : Int) < 2)
      ∧ (5 : Int) ≤ (calcOutputShape .same 1 3 3 2 2 5 5).outputRows * 2 :=
  ⟨⟨by decide, by decide, by decide⟩,
    (calcOutputShape_spec 1 5 5 3 3 2 2 (by decide) (by decide) (by decide)
      (by decide) (by decide) (by decide)).2.1.1⟩

/-- **C3** (counterexample).  The claim says the backend choice is fixed at
construction and that no per-input state decides it, so two calls with
identical numerical inputs would take the same path.  In the code the branch
at line 225 tests the input wrapper's `_useWeblas` flag on every call: two
wrappers carrying the very same tensor data but different flags take
different backend paths, and the constructor (lines 18-55) records no backend
capability at all. -/
theorem backend_differs_on_equal_data :
    (TensorW.mk 7 true tinyT).tensor = (TensorW.mk 7 false tinyT).tensor
      ∧ backendChosen (TensorW.mk 7 true tinyT) ≠ backendChosen (TensorW.mk 7 false tinyT) :=
  ⟨rfl, by decide⟩

/-- **C3** (amended).  The backend for an invocation of `call` is decided per
call by the input wrapper's `_useWeblas` flag alone: two calls whose inputs
carry the same flag take the same backend path. -/
theorem backendChosen_determined_by_flag (x y : TensorW)
    (h : x.useWeblas = y.useWeblas) :
    backendChosen x = backendChosen y := by
  unfold backendChosen
  rw [h]

/-- Witness for the amended C3: two distinct wrappers with the same flag. -/
theorem backendChosen_determined_by_flag_witness :
    (TensorW.mk 0 true tinyT).useWeblas = (TensorW.mk 1 true tinyT).useWeblas
      ∧ backendChosen (TensorW.mk 0 true tinyT) = backendChosen (TensorW.mk 1 true tinyT) :=
  ⟨rfl, backendChosen_determined_by_flag _ _ rfl⟩

/-- **C4** (counterexample).  The claim says construction fails whenever
`numFilters < 1`.  The constructor only validates `borderMode` (line 37) and
`dimOrdering` (line 45): with `nbFilter = 0` (and every other attribute at its
default, hence valid) construction succeeds. -/
theorem construct_accepts_zero_filters :
    (0 : Int) < 1 ∧ (construct { nbFilter := 0 }).isOk = true :=
  ⟨by decide, by decide⟩

/-- **C4** (amended).  Construction fails (with a descriptive error) exactly
when `borderMode` is outside `{valid, same}` or `dimOrdering` is outside
`{tf, th}`; the numeric attributes (`nbFilter`, `nbRow`, `nbCol`, the stride
pair) are not validated, and construction succeeds whenever the two string
attributes are valid. -/
theorem construct_isOk_iff (a : Attrs) :
    (construct a).isOk = true ↔
      ((a.borderMode = "valid" ∨ a.borderMode = "same")
        ∧ (a.dimOrdering = "tf" ∨ a.dimOrdering = "th")) := by
  unfold construct
  by_cases h1 : a.borderMode = "valid" ∨ a.borderMode = "same" <;>
    by_cases h2 : a.dimOrdering = "tf" ∨ a.dimOrdering = "th" <;>
      simp [h1, h2, Except.isOk, Except.toBool]

/-- **C5.** On the concrete scenario - input 5x5x1 with sequential values
0..24, all-ones 3x3x1x1 kernel, zero bias, stride 1, `valid` mode - `call`
produces a 3x3x1 output in which every entry is the sum of its 3x3 input
neighborhood, and in particular the entry at `(0, 0)` is 54. -/
theorem conv_5x5_sequential_allones :
    c5Result.tensor.shape = (3, 3, 1)
      ∧ (∀ i : Fin 3, ∀ j : Fin 3,
          c5Result.tensor.data i.1 j.1 0
            = ∑ r in Finset.range 3, ∑ c in Finset.range 3,
                seqInput55.data (i.1 + r) (j.1 + c) 0)
      ∧ c5Result.tensor.data 0 0 0 = 54 :=
  ⟨by decide, by decide, by decide⟩

/-- **C6.** For every configuration, weight assignment, and input, running
`call` with `useBias = false` returns exactly the same output wrapper as
running it with `useBias = true` and an all-zero bias vector: with the bias
disabled the matmul accumulator starts at zero (lines 219-223), and the
accelerated path passes a zero array in place of the bias (line 228), which
is also what an all-zero bias vector produces. -/
theorem call_no_bias_eq_zero_bias (ord : DimOrdering) (bm : BorderMode)
    (nbFilter nbRow nbCol sr sc inputChannels : Nat)
    (act : Tensor3 → Tensor3) (s : LayerState) (xw : TensorW) :
    (callState ord bm nbFilter nbRow nbCol sr sc false inputChannels act s xw).2
      = (callState ord bm nbFilter nbRow nbCol sr sc true inputChannels act
          { s with weightsB := fun _ => 0 } xw).2 := by
  simp [callState]

/-- **C7.** Transposing any 3-D tensor from channelsFirst order to the
canonical channelsLast order (entry transpose of `call`, line 194) and then
back (exit transpose, line 260) reproduces the original tensor exactly. -/
theorem transpose_roundtrip (x : Tensor3) :
    transpose201 (transpose120 x) = x := rfl

/-- **C8.** The flattened weight matrix is computed once per weight
assignment and cached on the layer: after `setWeights`, the cache holds
`_w2row` of the (canonically oriented) weights, and across any sequence of
subsequent calls every call reads that same cached matrix - no invocation of
`call` recomputes or rewrites it (line 209 only reads `this._wRowsMat`). -/
theorem wRowsMat_cached_across_calls (ord : DimOrdering) (bm : BorderMode)
    (nbFilter nbRow nbCol sr sc : Nat) (useBias : Bool) (inputChannels : Nat)
    (act : Tensor3 → Tensor3) (w : Nat → Nat → Nat → Nat → Int) (b : Nat → Int)
    (s : LayerState) (xs : List TensorW) :
    (foldCalls ord bm nbFilter nbRow nbCol sr sc useBias inputChannels act
        (setWeightsState ord inputChannels nbCol w b s) xs).wRowsMat
      = (setWeightsState ord inputChannels nbCol w b s).wRowsMat
    ∧ (setWeightsState ord inputChannels nbCol w b s).wRowsMat
      = w2rowMat (match ord with | .th => transposeW2310 w | .tf => w) inputChannels nbCol := by
  refine ⟨foldCalls_wRowsMat ord bm nbFilter nbRow nbCol sr sc useBias inputChannels act _ xs, ?_⟩
  cases ord <;> rfl

/-- **C9.** The padding step is a no-op when `borderMode = valid`.  When
`borderMode = same` it builds a fresh zero-initialized tensor of shape
`[H + padTop + padBottom, W + padLeft + padRight, C]` holding the original
data at offset `(padTop, padLeft, 0)` and zero everywhere else; in the source
the only write is into that fresh tensor (`ops.assign` at line 122 targets
`_x`), the caller's original ndarray buffer is only read, and the fresh
tensor is what `call` feeds to every downstream step (it is the `x.tensor` of
line 128, consumed by `_im2col` at line 205). -/
theorem padInput_spec (prb pra pcb pca : Nat) (x : Tensor3) :
    padInput .valid prb pra pcb pca x = x
      ∧ (padInput .same prb pra pcb pca x).shape
          = (x.shape.1 + prb + pra, x.shape.2.1 + pcb + pca, x.shape.2.2)
      ∧ (∀ i j c, i < x.shape.1 → j < x.shape.2.1 → c < x.shape.2.2 →
          (padInput .same prb pra pcb pca x).data (prb + i) (pcb + j) c = x.data i j c)
      ∧ (∀ i j c,
          i < prb ∨ x.shape.1 + prb ≤ i ∨ j < pcb ∨ x.shape.2.1 + pcb ≤ j ∨ x.shape.2.2 ≤ c →
          (padInput .same prb pra pcb pca x).data i j c = 0) := by
  refine ⟨rfl, rfl, ?_, ?_⟩
  · intro i j c hi hj hc
    simp only [padInput]
    have hcond : prb ≤ prb + i ∧ prb + i < x.shape.1 + prb ∧ pcb ≤ pcb + j
        ∧ pcb + j < x.shape.2.1 + pcb ∧ c < x.shape.2.2 :=
      ⟨by omega, by omega, by omega, by omega, hc⟩
    rw [if_pos hcond, Nat.add_sub_cancel_left, Nat.add_sub_cancel_left]
  · intro i j c h
    simp only [padInput]
    have hcond : ¬(prb ≤ i ∧ i < x.shape.1 + prb ∧ pcb ≤ j
        ∧ j < x.shape.2.1 + pcb ∧ c < x.shape.2.2) := by
      rcases h with h | h | h | h | h <;> omega
    rw [if_neg hcond]

/-- Witness for C9 at a concrete padded tensor: the interior-copy hypotheses
hold at position `(0, 0, 0)` of the 2x2x1 tensor `tinyT` padded by one on
every side. -/
theorem padInput_spec_witness :
    (0 < tinyT.shape.1 ∧ 0 < tinyT.shape.2.1 ∧ 0 < tinyT.shape.2.2)
      ∧ (padInput .same 1 1 1 1 tinyT).data (1 + 0) (1 + 0) 0 = tinyT.data 0 0 0 :=
  ⟨⟨by decide, by decide, by decide⟩,
    (padInput_spec 1 1 1 1 tinyT).2.2.1 0 0 0 (by decide) (by decide) (by decide)⟩

/-- **C10.** `call` returns the very same wrapper object it was given - the
returned wrapper keeps the input wrapper's identity (and its `_useWeblas`
flag); only its `.tensor` field is overwritten with the computed output
(line 249 assigns `x.tensor`, line 263 returns `x`).  On the concrete 5x5
scenario the returned wrapper's contents indeed differ from the input it
arrived with: the input contents are overwritten, not preserved beside a
separate output. -/
theorem call_returns_same_wrapper (ord : DimOrdering) (bm : BorderMode)
    (nbFilter nbRow nbCol sr sc : Nat) (useBias : Bool) (inputChannels : Nat)
    (act : Tensor3 → Tensor3) (s : LayerState) (xw : TensorW) :
    ((callState ord bm nbFilter nbRow nbCol sr sc useBias inputChannels act s xw).2.id
        = xw.id
      ∧ (callState ord bm nbFilter nbRow nbCol sr sc useBias inputChannels act s xw).2.useWeblas
        = xw.useWeblas)
    ∧ c5Result.id = c5Wrapper.id
    ∧ c5Result.tensor.data 0 0 0 ≠ c5Wrapper.tensor.data 0 0 0 :=
  ⟨⟨rfl, rfl⟩, rfl, by decide⟩

end Conv2D
